import Mathlib

/-!
Shallow embedding of `src/account.py` (class `Account`, module-level dict
`transactions`, class-level `transaction_counter` / `_interest_rate`) from the
bank-account repository, together with proofs of the specified properties.

Modelling conventions:
- Python real numbers are modelled as `ℚ` (the spec talks of real numbers;
  all amounts and rates in the program are finite decimals).
- `datetime.now(tz=pytz.utc)` is nondeterministic input: each operation takes
  the captured `DateTime` as an explicit parameter.
- Python exceptions are modelled with `Except`: an operation returns its
  result together with the (unchanged or updated) state; raising returns the
  state it had at the raise point.
- Arguments that may fail `isinstance` checks are modelled as sum types
  (`NumArg`, `StrArg`) with a non-conforming constructor.
-/

/-- A UTC instant as captured by `datetime.now(tz=pytz.utc)`:
year/month/day/hour/minute/second fields. -/
structure DateTime where
  year : Nat
  month : Nat
  day : Nat
  hour : Nat
  minute : Nat
  second : Nat
deriving DecidableEq

/-- The field ranges `datetime.now` actually produces (year is 4-digit in the
supported era, so `%Y` renders identically on every platform). -/
def DateTime.valid (dt : DateTime) : Prop :=
  1000 ≤ dt.year ∧ dt.year ≤ 9999 ∧ 1 ≤ dt.month ∧ dt.month ≤ 12 ∧
    1 ≤ dt.day ∧ dt.day ≤ 31 ∧ dt.hour ≤ 23 ∧ dt.minute ≤ 59 ∧ dt.second ≤ 59

instance (dt : DateTime) : Decidable dt.valid := by
  unfold DateTime.valid; infer_instance

/-- Digit-list worker, structurally recursive on a fuel argument so that it
also computes inside the kernel; `fuel > n` always suffices. -/
def decDigitsAux (fuel : Nat) (n : Nat) : List Char :=
  match fuel with
  | 0 => []
  | fuel + 1 =>
    if n < 10 then [Char.ofNat (48 + n)]
    else decDigitsAux fuel (n / 10) ++ [Char.ofNat (48 + n % 10)]

/-- Decimal digit characters of `n`, most significant first: the digits Python
produces for `f-string` interpolation of a non-negative `int`. -/
def decDigits (n : Nat) : List Char := decDigitsAux (n + 1) n

/-- Zero-pad a decimal rendering to width `w`: the behaviour of `strftime`
format codes `%Y` (w = 4) and `%m %d %H %M %S` (w = 2). -/
def padDec (w n : Nat) : List Char :=
  List.replicate (w - (decDigits n).length) '0' ++ decDigits n

/-- `dt.strftime('%Y%m%d%H%M%S')` from `generate_conf_number`. -/
def strftimeStamp (dt : DateTime) : String :=
  String.mk (padDec 4 dt.year ++ padDec 2 dt.month ++ padDec 2 dt.day ++
    padDec 2 dt.hour ++ padDec 2 dt.minute ++ padDec 2 dt.second)

/-- Python `str.split(sep)` for a one-character separator, on the character
list of the string. Never returns `[]` (splitting the empty string gives
`[[]]`, as in Python). -/
def splitSegs (c : Char) : List Char → List (List Char)
  | [] => [[]]
  | x :: xs =>
    match splitSegs c xs with
    | [] => [[]]
    | s :: rest => if x = c then [] :: s :: rest else (x :: s) :: rest

/-- `s.split(c)[-1]`: the last segment. `splitSegs` never returns `[]`, so the
`[]` default is never used (Python's `[-1]` is total here). -/
def lastSeg (c : Char) (l : List Char) : List Char :=
  ((splitSegs c l).getLast?).getD []

/-- Numeric value of a digit string, as Python `int` computes it. -/
def digitsVal (l : List Char) : Nat :=
  l.foldl (fun a c => 10 * a + (c.toNat - 48)) 0

/-- Python `int(s)` restricted to the non-negative plain-digit case, the only
form this program ever produces for a transaction id; `none` models the
`ValueError` that `int` raises on a non-numeric string. -/
def pyInt? (l : List Char) : Option Nat :=
  if l ≠ [] ∧ l.all (fun c => c.isDigit) then some (digitsVal l) else none

/-- Python `str.strip()`: drop whitespace from both ends (structural, so it
also computes inside the kernel). -/
def pyStrip (s : String) : String :=
  String.mk (((s.data.dropWhile Char.isWhitespace).reverse.dropWhile
    Char.isWhitespace).reverse)

/-- An argument that Python checks with `isinstance(value, numbers.Real)`. -/
inductive NumArg where
  | real (q : ℚ)
  | nonReal
deriving DecidableEq

/-- An argument that Python checks with `isinstance(value, str)`. -/
inductive StrArg where
  | str (s : String)
  | nonStr
deriving DecidableEq

/-- The `ValueError` / `KeyError` raise sites of `account.py`; each
constructor corresponds to one `raise` statement (messages in comments). -/
inductive PyErr where
  | mustBeReal
  -- 'The value must be a real number.'
  | belowMin (min_value : ℚ)
  -- f'The value must be at least min_value.'
  | mustBePositive
  -- 'The value must be a positive number.'
  | zeroValue
  -- 'The value can not be 0.'
  | nameNotString (field : String)
  -- f'field must be a string'
  | nameEmpty (field : String)
  -- f'field can not be empty string.'
  | rateNotReal
  -- 'Interest rate must be a real number.'
  | rateNegative
  -- 'Interest rate cannot be negative.'
  | intParse
  -- ValueError raised by int() on a non-numeric trailing segment
  | keyError (id_num : Nat)
  -- KeyError raised by the transactions dict lookup
deriving DecidableEq

instance {ε α : Type} [DecidableEq ε] [DecidableEq α] : DecidableEq (Except ε α) := fun
  | .error a, .error b =>
    if h : a = b then .isTrue (by rw [h])
    else .isFalse (by intro hh; cases hh; exact h rfl)
  | .error _, .ok _ => .isFalse (by intro hh; cases hh)
  | .ok _, .error _ => .isFalse (by intro hh; cases hh)
  | .ok a, .ok b =>
    if h : a = b then .isTrue (by rw [h])
    else .isFalse (by intro hh; cases hh; exact h rfl)

/-- One entry of the module-level `transactions` dict:
`{'id_num': ..., 'code': ..., 'acc_num': ..., 'dt': ...}`. -/
structure Entry where
  id_num : Nat
  code : String
  acc_num : String
  dt : DateTime
deriving DecidableEq

/-- The process-wide mutable state shared by all accounts: the module-level
`transactions` dict, the class-level `transaction_counter` (modelled by the
next value it will yield) and the class-level `_interest_rate`. -/
structure Global where
  counter : Nat
  transactions : Nat → Option Entry
  interest_rate : ℚ

/-- Initial process state: `itertools.count(1)` yields 1 first, the dict is
empty, `_interest_rate = 0.005`. -/
def Global.start : Global :=
  { counter := 1, transactions := fun _ => none, interest_rate := 1 / 200 }

/-- Per-instance attributes of one `Account` object. `tz` is the stored
display-zone name (the `TimeZone` value type lives outside this repository
and is only stored, never inspected, by the code under `src/`). -/
structure AccountState where
  account_number : String
  first_name : String
  last_name : String
  full_name_cache : Option String
  tz : String
  balance : ℚ

namespace Account

/-- `Account._transaction_codes`. -/
def transaction_codes : List (String × String) :=
  [("deposit", "D"), ("withdraw", "W"), ("interest", "I"), ("rejected", "X")]

/-- `Account._transaction_codes[k]` (total lookup; all call sites use keys
present in the dict). -/
def transaction_code (k : String) : String :=
  (transaction_codes.lookup k).getD ""

/-- `Account.validate_name`. -/
def validate_name (value : StrArg) (field_name : String) : Except PyErr String :=
  match value with
  | .nonStr => .error (.nameNotString field_name)
  | .str s =>
    if (pyStrip s).length = 0 then .error (.nameEmpty field_name)
    else .ok (pyStrip s)

/-- `Account.validate_initial_balance`. -/
def validate_initial_balance (value : NumArg) (min_value : Option ℚ) :
    Except PyErr ℚ :=
  match value, min_value with
  | .nonReal, _ => .error .mustBeReal
  | .real v, some m =>
    if v < m then .error (.belowMin m)
    else if v < 0 then .error .mustBePositive
    else .ok v
  | .real v, none =>
    if v < 0 then .error .mustBePositive
    else .ok v

/-- `Account.validate_real_number`. -/
def validate_real_number (value : NumArg) (min_value : Option ℚ) :
    Except PyErr ℚ :=
  match validate_initial_balance value min_value with
  | .error e => .error e
  | .ok v => if v = 0 then .error .zeroValue else .ok v

/-- `Account.__init__` (the `TimeZone(zone)` construction is outside `src/`;
the zone name is stored, defaulting to the class-level `'UTC'`). -/
def init (number : String) (first_name : StrArg) (last_name : StrArg)
    (initial_balance : NumArg) (zone : Option String) :
    Except PyErr AccountState :=
  match validate_name first_name "first name" with
  | .error e => .error e
  | .ok f =>
    match validate_name last_name "last name" with
    | .error e => .error e
    | .ok l =>
      match validate_initial_balance initial_balance (some 0) with
      | .error e => .error e
      | .ok b =>
        .ok { account_number := number, first_name := f, last_name := l,
              full_name_cache := none, tz := zone.getD "UTC", balance := b }

/-- `Account.set_interest_rate` (classmethod): returns the raise-or-ok outcome
together with the process state after the call. -/
def set_interest_rate (g : Global) (value : NumArg) :
    Except PyErr Unit × Global :=
  match value with
  | .nonReal => (.error .rateNotReal, g)
  | .real v =>
    if v < 0 then (.error .rateNegative, g)
    else (.ok (), { g with interest_rate := v })

/-- The `first_name` property setter. -/
def set_first_name (self : AccountState) (name : StrArg) :
    Except PyErr Unit × AccountState :=
  match validate_name name "first name" with
  | .error e => (.error e, self)
  | .ok n => (.ok (), { self with first_name := n, full_name_cache := none })

/-- The `last_name` property setter. -/
def set_last_name (self : AccountState) (name : StrArg) :
    Except PyErr Unit × AccountState :=
  match validate_name name "last name" with
  | .error e => (.error e, self)
  | .ok n => (.ok (), { self with last_name := n, full_name_cache := none })

/-- The `full_name` property read: lazily fills the cache. -/
def full_name (self : AccountState) : String × AccountState :=
  match self.full_name_cache with
  | none =>
    let fn := self.first_name ++ " " ++ self.last_name
    (fn, { self with full_name_cache := some fn })
  | some fn => (fn, self)

/-- `Account.generate_conf_number`: records the registry entry and returns
`f'{code}-{account_number}-{dt_stamp}-{id_num}'`. -/
def generate_conf_number (self : AccountState) (g : Global) (code : String)
    (id_num : Nat) (dt : DateTime) : String × Global :=
  let dt_stamp := strftimeStamp dt
  let e : Entry := { id_num := id_num, code := code,
                     acc_num := self.account_number, dt := dt }
  let g' := { g with transactions := fun k =>
    if k = id_num then some e else g.transactions k }
  (code ++ "-" ++ self.account_number ++ "-" ++ dt_stamp ++ "-" ++
    String.mk (decDigits id_num), g')

/-- `Account.deposit`. -/
def deposit (self : AccountState) (g : Global) (amount : NumArg)
    (dt : DateTime) : Except PyErr String × AccountState × Global :=
  match validate_real_number amount (some (1 / 100)) with
  | .error e => (.error e, self, g)
  | .ok amount =>
    let id_num := g.counter
    let g := { g with counter := g.counter + 1 }
    let code := transaction_code "deposit"
    let r := generate_conf_number self g code id_num dt
    (.ok r.1, { self with balance := self.balance + amount }, r.2)

/-- `Account.withdraw`. -/
def withdraw (self : AccountState) (g : Global) (amount : NumArg)
    (dt : DateTime) : Except PyErr String × AccountState × Global :=
  match validate_real_number amount (some (1 / 100)) with
  | .error e => (.error e, self, g)
  | .ok amount =>
    let id_num := g.counter
    let g := { g with counter := g.counter + 1 }
    if self.balance - amount < 0 then
      let r := generate_conf_number self g (transaction_code "rejected") id_num dt
      (.ok r.1, self, r.2)
    else
      let r := generate_conf_number self g (transaction_code "withdraw") id_num dt
      (.ok r.1, { self with balance := self.balance - amount }, r.2)

/-- `Account.pay_interest`: no rejection path, always returns a confirmation. -/
def pay_interest (self : AccountState) (g : Global) (dt : DateTime) :
    String × AccountState × Global :=
  let interest := self.balance * g.interest_rate
  let id_num := g.counter
  let g := { g with counter := g.counter + 1 }
  let code := transaction_code "interest"
  let r := generate_conf_number self g code id_num dt
  (r.1, { self with balance := self.balance + interest }, r.2)

end Account

/-- Modelled from the spec: the `Transaction` record type of `transactions.py`
is not under `src/`; per §1 it "simply carries the fields of a past operation
(account number, code, transaction id, UTC time, and — on lookup — a
zone-converted display time) with no behavior of its own", with the field
names exercised by `tests/test_account.py`. -/
structure Transaction where
  transaction_id : Nat
  transaction_code : String
  account_number : String
  time_utc : DateTime
  tz : String
deriving DecidableEq

namespace Account

/-- `Account.get_transaction` (staticmethod): parses the trailing segment of
the confirmation code, looks the id up in the `transactions` dict (a missing
key raises `KeyError`) and builds the `Transaction` record. -/
def get_transaction (g : Global) (confirmation : String) (tz : String) :
    Except PyErr Transaction :=
  match pyInt? (lastSeg '-' confirmation.data) with
  | none => .error .intParse
  | some id_num =>
    match g.transactions id_num with
    | none => .error (.keyError id_num)
    | some e =>
      .ok { transaction_id := e.id_num, transaction_code := e.code,
            account_number := e.acc_num, time_utc := e.dt, tz := tz }

end Account

/-- One public call in a process-level trace; the target account is named by
its index in the bank's account list (a call on a nonexistent index is a
no-op: there is no such object to call a method on). -/
inductive Op where
  | dep (i : Nat) (amount : NumArg) (dt : DateTime)
  | wd (i : Nat) (amount : NumArg) (dt : DateTime)
  | interest (i : Nat) (dt : DateTime)
  | setRate (value : NumArg)
  | setFirst (i : Nat) (name : StrArg)
  | setLast (i : Nat) (name : StrArg)
  | readFull (i : Nat)

/-- All live `Account` objects of one process plus the shared class-level and
module-level state. -/
structure Bank where
  accounts : List AccountState
  g : Global

/-- Apply one call to the process state. -/
def Bank.step (b : Bank) : Op → Bank
  | .dep i amount dt =>
    match b.accounts.get? i with
    | none => b
    | some acc =>
      let r := Account.deposit acc b.g amount dt
      { accounts := b.accounts.set i r.2.1, g := r.2.2 }
  | .wd i amount dt =>
    match b.accounts.get? i with
    | none => b
    | some acc =>
      let r := Account.withdraw acc b.g amount dt
      { accounts := b.accounts.set i r.2.1, g := r.2.2 }
  | .interest i dt =>
    match b.accounts.get? i with
    | none => b
    | some acc =>
      let r := Account.pay_interest acc b.g dt
      { accounts := b.accounts.set i r.2.1, g := r.2.2 }
  | .setRate value =>
    { b with g := (Account.set_interest_rate b.g value).2 }
  | .setFirst i name =>
    match b.accounts.get? i with
    | none => b
    | some acc =>
      { b with accounts := b.accounts.set i (Account.set_first_name acc name).2 }
  | .setLast i name =>
    match b.accounts.get? i with
    | none => b
    | some acc =>
      { b with accounts := b.accounts.set i (Account.set_last_name acc name).2 }
  | .readFull i =>
    match b.accounts.get? i with
    | none => b
    | some acc =>
      { b with accounts := b.accounts.set i (Account.full_name acc).2 }

/-- Run a whole trace of calls. -/
def Bank.run (b : Bank) : List Op → Bank
  | [] => b
  | op :: ops => (b.step op).run ops

/-- The transaction ids handed out by the shared generator along a trace: a
step that advanced the counter allocated the counter's old value via
`next(Account.transaction_counter)`. -/
def Bank.allocTrace (b : Bank) : List Op → List Nat
  | [] => []
  | op :: ops =>
    let b' := b.step op
    if b'.g.counter = b.g.counter then b'.allocTrace ops
    else b.g.counter :: b'.allocTrace ops

/-! ### Decimal-digit and split lemmas -/

theorem toNat_ofNat_digit (d : Nat) (h : d < 10) :
    (Char.ofNat (48 + d)).toNat = 48 + d := by
  interval_cases d <;> decide

theorem isDigit_ofNat_digit (d : Nat) (h : d < 10) :
    (Char.ofNat (48 + d)).isDigit = true := by
  interval_cases d <;> decide

theorem decDigitsAux_ne_nil (fuel n : Nat) (h : n < fuel) :
    decDigitsAux fuel n ≠ [] := by
  cases fuel with
  | zero => omega
  | succ fuel =>
    simp only [decDigitsAux]
    split <;> simp

theorem decDigits_ne_nil (n : Nat) : decDigits n ≠ [] :=
  decDigitsAux_ne_nil (n + 1) n (Nat.lt_succ_self n)

theorem decDigitsAux_all_digit (fuel n : Nat) :
    ∀ c ∈ decDigitsAux fuel n, c.isDigit = true := by
  induction fuel generalizing n with
  | zero => simp [decDigitsAux]
  | succ fuel ih =>
    simp only [decDigitsAux]
    split
    next h =>
      intro c hc
      simp only [List.mem_singleton] at hc
      subst hc
      exact isDigit_ofNat_digit n h
    next h =>
      intro c hc
      rcases List.mem_append.mp hc with h1 | h1
      · exact ih (n / 10) c h1
      · simp only [List.mem_singleton] at h1
        subst h1
        exact isDigit_ofNat_digit (n % 10) (Nat.mod_lt n (by omega))

theorem decDigits_all_digit (n : Nat) :
    ∀ c ∈ decDigits n, c.isDigit = true :=
  decDigitsAux_all_digit (n + 1) n

theorem dash_not_mem_decDigits (n : Nat) : '-' ∉ decDigits n := by
  intro h
  have hd := decDigits_all_digit n '-' h
  simp [Char.isDigit] at hd

theorem digitsVal_decDigitsAux (fuel n : Nat) (h : n < fuel) :
    digitsVal (decDigitsAux fuel n) = n := by
  induction fuel generalizing n with
  | zero => omega
  | succ fuel ih =>
    simp only [decDigitsAux]
    split
    next h10 =>
      simp only [digitsVal, List.foldl_cons, List.foldl_nil]
      rw [toNat_ofNat_digit n h10]
      omega
    next h10 =>
      have hdiv : n / 10 < n := Nat.div_lt_self (by omega) (by omega)
      have ihd := ih (n / 10) (by omega)
      simp only [digitsVal, List.foldl_append, List.foldl_cons, List.foldl_nil]
      simp only [digitsVal] at ihd
      rw [ihd, toNat_ofNat_digit (n % 10) (Nat.mod_lt n (by omega))]
      omega

theorem digitsVal_decDigits (n : Nat) : digitsVal (decDigits n) = n :=
  digitsVal_decDigitsAux (n + 1) n (Nat.lt_succ_self n)

theorem splitSegs_ne_nil (c : Char) (l : List Char) : splitSegs c l ≠ [] := by
  cases l with
  | nil => simp [splitSegs]
  | cons x xs =>
    unfold splitSegs
    cases h : splitSegs c xs with
    | nil => simp
    | cons s rest =>
      dsimp only
      split <;> simp

theorem splitSegs_of_not_mem (c : Char) (l : List Char) (h : c ∉ l) :
    splitSegs c l = [l] := by
  induction l with
  | nil => rfl
  | cons x xs ih =>
    have hx : x ≠ c := fun he => h (he ▸ List.mem_cons_self x xs)
    have hxs : c ∉ xs := fun hm => h (List.mem_cons_of_mem x hm)
    unfold splitSegs
    rw [ih hxs]
    simp [hx]

theorem splitSegs_cons (c x : Char) (xs : List Char) :
    splitSegs c (x :: xs) =
      match splitSegs c xs with
      | [] => [[]]
      | s :: rest => if x = c then [] :: s :: rest else (x :: s) :: rest := rfl

theorem splitSegs_length (c : Char) (l : List Char) :
    (splitSegs c l).length = l.count c + 1 := by
  induction l with
  | nil => simp [splitSegs]
  | cons x xs ih =>
    rw [splitSegs_cons]
    cases h : splitSegs c xs with
    | nil => exact absurd h (splitSegs_ne_nil c xs)
    | cons s rest =>
      rw [h] at ih
      simp only [List.length_cons] at ih
      dsimp only
      by_cases hx : x = c
      · subst hx
        rw [if_pos rfl]
        simp only [List.length_cons, List.count_cons_self]
        omega
      · rw [if_neg hx]
        have hcnt : (x :: xs).count c = xs.count c := by
          simp [List.count_cons, hx]
        simp only [List.length_cons, hcnt]
        omega

theorem getLast?_splitSegs_append (c : Char) (xs ys : List Char) :
    (splitSegs c (xs ++ c :: ys)).getLast? = (splitSegs c ys).getLast? := by
  induction xs with
  | nil =>
    rw [List.nil_append, splitSegs_cons]
    cases h : splitSegs c ys with
    | nil => exact absurd h (splitSegs_ne_nil c ys)
    | cons s rest =>
      dsimp only
      rw [if_pos rfl, List.getLast?_cons_cons]
  | cons x xs ih =>
    rw [List.cons_append, splitSegs_cons]
    cases h : splitSegs c (xs ++ c :: ys) with
    | nil => exact absurd h (splitSegs_ne_nil c (xs ++ c :: ys))
    | cons s rest =>
      have hrest : rest ≠ [] := by
        intro hr
        have hl := splitSegs_length c (xs ++ c :: ys)
        rw [h, hr] at hl
        simp only [List.length_cons, List.length_nil] at hl
        have hcount : (xs ++ c :: ys).count c = xs.count c + (ys.count c + 1) := by
          simp [List.count_append, List.count_cons_self]
        omega
      obtain ⟨r, rs, hr⟩ := List.exists_cons_of_ne_nil hrest
      subst hr
      rw [h] at ih
      dsimp only
      split
      · rw [List.getLast?_cons_cons]
        exact ih
      · rw [List.getLast?_cons_cons, ← ih, List.getLast?_cons_cons]

theorem lastSeg_append_of_not_mem (xs ys : List Char) (h : '-' ∉ ys) :
    lastSeg '-' (xs ++ '-' :: ys) = ys := by
  unfold lastSeg
  rw [getLast?_splitSegs_append, splitSegs_of_not_mem '-' ys h]
  rfl

theorem pyInt?_decDigits (n : Nat) :
    pyInt? (decDigits n) = some n := by
  unfold pyInt?
  rw [if_pos]
  · rw [digitsVal_decDigits]
  · exact ⟨decDigits_ne_nil n, List.all_eq_true.mpr (decDigits_all_digit n)⟩

/-! ### Validation lemmas -/

theorem validate_initial_balance_ok (value : NumArg) (m : Option ℚ) (a : ℚ)
    (h : Account.validate_initial_balance value m = .ok a) :
    value = .real a ∧ 0 ≤ a ∧ ∀ mv, m = some mv → mv ≤ a := by
  cases value with
  | nonReal => simp [Account.validate_initial_balance] at h
  | real v =>
    cases m with
    | none =>
      simp only [Account.validate_initial_balance] at h
      split_ifs at h with h0
      simp only [Except.ok.injEq] at h
      subst h
      exact ⟨rfl, le_of_not_lt h0, fun mv hmv => by cases hmv⟩
    | some mv =>
      simp only [Account.validate_initial_balance] at h
      split_ifs at h with hm h0
      simp only [Except.ok.injEq] at h
      subst h
      refine ⟨rfl, le_of_not_lt h0, fun mv' hmv' => ?_⟩
      cases hmv'
      exact le_of_not_lt hm

theorem validate_real_number_ok (value : NumArg) (m : Option ℚ) (a : ℚ)
    (h : Account.validate_real_number value m = .ok a) :
    value = .real a ∧ 0 ≤ a ∧ a ≠ 0 ∧ ∀ mv, m = some mv → mv ≤ a := by
  unfold Account.validate_real_number at h
  cases hib : Account.validate_initial_balance value m with
  | error e => rw [hib] at h; simp at h
  | ok v =>
    rw [hib] at h
    dsimp only at h
    split_ifs at h with hz
    simp only [Except.ok.injEq] at h
    subst h
    obtain ⟨h1, h2, h3⟩ := validate_initial_balance_ok value m v hib
    exact ⟨h1, h2, hz, h3⟩

/-! ### Operation step lemmas -/

theorem deposit_err (self : AccountState) (g : Global) (amount : NumArg)
    (dt : DateTime) (e : PyErr)
    (hv : Account.validate_real_number amount (some (1 / 100)) = .error e) :
    Account.deposit self g amount dt = (.error e, self, g) := by
  unfold Account.deposit
  rw [hv]

theorem withdraw_err (self : AccountState) (g : Global) (amount : NumArg)
    (dt : DateTime) (e : PyErr)
    (hv : Account.validate_real_number amount (some (1 / 100)) = .error e) :
    Account.withdraw self g amount dt = (.error e, self, g) := by
  unfold Account.withdraw
  rw [hv]

theorem deposit_ok (self : AccountState) (g : Global) (amount : NumArg)
    (dt : DateTime) (a : ℚ)
    (hv : Account.validate_real_number amount (some (1 / 100)) = .ok a) :
    Account.deposit self g amount dt =
      (.ok ("D" ++ "-" ++ self.account_number ++ "-" ++ strftimeStamp dt ++
          "-" ++ String.mk (decDigits g.counter)),
       { self with balance := self.balance + a },
       { counter := g.counter + 1,
         transactions := fun k =>
           if k = g.counter then
             some { id_num := g.counter, code := "D",
                    acc_num := self.account_number, dt := dt }
           else g.transactions k,
         interest_rate := g.interest_rate }) := by
  unfold Account.deposit
  rw [hv]
  rfl

theorem withdraw_rejected (self : AccountState) (g : Global) (amount : NumArg)
    (dt : DateTime) (a : ℚ)
    (hv : Account.validate_real_number amount (some (1 / 100)) = .ok a)
    (hb : self.balance - a < 0) :
    Account.withdraw self g amount dt =
      (.ok ("X" ++ "-" ++ self.account_number ++ "-" ++ strftimeStamp dt ++
          "-" ++ String.mk (decDigits g.counter)),
       self,
       { counter := g.counter + 1,
         transactions := fun k =>
           if k = g.counter then
             some { id_num := g.counter, code := "X",
                    acc_num := self.account_number, dt := dt }
           else g.transactions k,
         interest_rate := g.interest_rate }) := by
  unfold Account.withdraw
  rw [hv]
  dsimp only
  rw [if_pos hb]
  rfl

theorem withdraw_accepted (self : AccountState) (g : Global) (amount : NumArg)
    (dt : DateTime) (a : ℚ)
    (hv : Account.validate_real_number amount (some (1 / 100)) = .ok a)
    (hb : ¬ self.balance - a < 0) :
    Account.withdraw self g amount dt =
      (.ok ("W" ++ "-" ++ self.account_number ++ "-" ++ strftimeStamp dt ++
          "-" ++ String.mk (decDigits g.counter)),
       { self with balance := self.balance - a },
       { counter := g.counter + 1,
         transactions := fun k =>
           if k = g.counter then
             some { id_num := g.counter, code := "W",
                    acc_num := self.account_number, dt := dt }
           else g.transactions k,
         interest_rate := g.interest_rate }) := by
  unfold Account.withdraw
  rw [hv]
  dsimp only
  rw [if_neg hb]
  rfl

theorem pay_interest_eq (self : AccountState) (g : Global) (dt : DateTime) :
    Account.pay_interest self g dt =
      ("I" ++ "-" ++ self.account_number ++ "-" ++ strftimeStamp dt ++
          "-" ++ String.mk (decDigits g.counter),
       { self with balance := self.balance + self.balance * g.interest_rate },
       { counter := g.counter + 1,
         transactions := fun k =>
           if k = g.counter then
             some { id_num := g.counter, code := "I",
                    acc_num := self.account_number, dt := dt }
           else g.transactions k,
         interest_rate := g.interest_rate }) := rfl

/-! ### Timestamp and confirmation-string shape lemmas -/

theorem decDigitsAux_length_le (fuel n k : Nat) (hn : n < fuel) (hk : 1 ≤ k)
    (h : n < 10 ^ k) : (decDigitsAux fuel n).length ≤ k := by
  induction fuel generalizing n k with
  | zero => omega
  | succ fuel ih =>
    simp only [decDigitsAux]
    split
    next h10 => simpa using hk
    next h10 =>
      have hk2 : 2 ≤ k := by
        by_contra hlt
        have hk1 : k = 1 := by omega
        subst hk1
        simp only [pow_one] at h
        omega
      have hdiv : n / 10 < n := Nat.div_lt_self (by omega) (by omega)
      have hpow : 10 ^ k = 10 ^ (k - 1) * 10 := by
        conv_lhs => rw [show k = (k - 1) + 1 by omega]
        rw [pow_succ]
      have hdiv10 : n / 10 < 10 ^ (k - 1) := by
        rw [Nat.div_lt_iff_lt_mul (by omega : (0:Nat) < 10)]
        omega
      have := ih (n / 10) (k - 1) (by omega) (by omega) hdiv10
      simp only [List.length_append, List.length_singleton]
      omega

theorem decDigits_length_le (n k : Nat) (hk : 1 ≤ k) (h : n < 10 ^ k) :
    (decDigits n).length ≤ k :=
  decDigitsAux_length_le (n + 1) n k (Nat.lt_succ_self n) hk h

theorem padDec_length (w n : Nat) (hw : 1 ≤ w) (h : n < 10 ^ w) :
    (padDec w n).length = w := by
  unfold padDec
  rw [List.length_append, List.length_replicate]
  have := decDigits_length_le n w hw h
  omega

theorem padDec_all_digit (w n : Nat) : ∀ c ∈ padDec w n, c.isDigit = true := by
  intro c hc
  rcases List.mem_append.mp hc with h1 | h1
  · have he := List.eq_of_mem_replicate h1
    subst he
    decide
  · exact decDigits_all_digit n c h1

theorem strftimeStamp_data (dt : DateTime) :
    (strftimeStamp dt).data =
      padDec 4 dt.year ++ padDec 2 dt.month ++ padDec 2 dt.day ++
        padDec 2 dt.hour ++ padDec 2 dt.minute ++ padDec 2 dt.second := rfl

theorem strftimeStamp_length (dt : DateTime) (h : dt.valid) :
    (strftimeStamp dt).data.length = 14 := by
  obtain ⟨h1, h2, h3, h4, h5, h6, h7, h8, h9⟩ := h
  rw [strftimeStamp_data]
  simp only [List.length_append]
  rw [padDec_length 4 dt.year (by omega) (by norm_num; omega),
      padDec_length 2 dt.month (by omega) (by norm_num; omega),
      padDec_length 2 dt.day (by omega) (by norm_num; omega),
      padDec_length 2 dt.hour (by omega) (by norm_num; omega),
      padDec_length 2 dt.minute (by omega) (by norm_num; omega),
      padDec_length 2 dt.second (by omega) (by norm_num; omega)]

theorem strftimeStamp_all_digit (dt : DateTime) :
    ∀ c ∈ (strftimeStamp dt).data, c.isDigit = true := by
  rw [strftimeStamp_data]
  intro c hc
  simp only [List.mem_append] at hc
  rcases hc with ((((h | h) | h) | h) | h) | h <;> exact padDec_all_digit _ _ c h

theorem dash_not_mem_strftimeStamp (dt : DateTime) :
    '-' ∉ (strftimeStamp dt).data := by
  intro h
  have hd := strftimeStamp_all_digit dt '-' h
  simp [Char.isDigit] at hd

theorem splitSegs_append_of_not_mem (c : Char) (xs ys : List Char)
    (h : c ∉ xs) : splitSegs c (xs ++ c :: ys) = xs :: splitSegs c ys := by
  induction xs with
  | nil =>
    rw [List.nil_append, splitSegs_cons]
    cases hh : splitSegs c ys with
    | nil => exact absurd hh (splitSegs_ne_nil c ys)
    | cons s rest =>
      dsimp only
      rw [if_pos rfl]
  | cons x xs ih =>
    have hx : x ≠ c := fun he => h (by rw [he]; exact List.mem_cons_self c xs)
    have hxs : c ∉ xs := fun hm => h (List.mem_cons_of_mem x hm)
    rw [List.cons_append, splitSegs_cons, ih hxs]
    dsimp only
    rw [if_neg hx]

theorem conf_split (code acc : String) (dt : DateTime) (n : Nat)
    (hcode : '-' ∉ code.data) (hacc : '-' ∉ acc.data) :
    splitSegs '-' (code ++ "-" ++ acc ++ "-" ++ strftimeStamp dt ++ "-" ++
        String.mk (decDigits n)).data =
      [code.data, acc.data, (strftimeStamp dt).data, decDigits n] := by
  have hdash : ("-" : String).data = ['-'] := rfl
  have hdata : (code ++ "-" ++ acc ++ "-" ++ strftimeStamp dt ++ "-" ++
      String.mk (decDigits n)).data =
      code.data ++ '-' :: (acc.data ++ '-' ::
        ((strftimeStamp dt).data ++ '-' :: decDigits n)) := by
    simp [String.data_append, hdash, List.append_assoc]
  rw [hdata,
      splitSegs_append_of_not_mem '-' _ _ hcode,
      splitSegs_append_of_not_mem '-' _ _ hacc,
      splitSegs_append_of_not_mem '-' _ _ (dash_not_mem_strftimeStamp dt),
      splitSegs_of_not_mem '-' _ (dash_not_mem_decDigits n)]

theorem lastSeg_conf (p : String) (n : Nat) :
    lastSeg '-' (p ++ "-" ++ String.mk (decDigits n)).data = decDigits n := by
  have hdash : ("-" : String).data = ['-'] := rfl
  have hdata : (p ++ "-" ++ String.mk (decDigits n)).data =
      p.data ++ '-' :: decDigits n := by
    simp [String.data_append, hdash, List.append_assoc]
  rw [hdata]
  exact lastSeg_append_of_not_mem _ _ (dash_not_mem_decDigits n)

theorem get_transaction_append (g : Global) (p tz : String) (n : Nat) (e : Entry)
    (h : g.transactions n = some e) :
    Account.get_transaction g (p ++ "-" ++ String.mk (decDigits n)) tz =
      .ok { transaction_id := e.id_num, transaction_code := e.code,
            account_number := e.acc_num, time_utc := e.dt, tz := tz } := by
  unfold Account.get_transaction
  rw [lastSeg_conf, pyInt?_decDigits]
  dsimp only
  rw [h]

/-- The account fields other than `balance`. -/
def sameIdentity (a b : AccountState) : Prop :=
  a.account_number = b.account_number ∧ a.first_name = b.first_name ∧
    a.last_name = b.last_name ∧ a.full_name_cache = b.full_name_cache ∧
    a.tz = b.tz

/-- C2: for every amount that passes validation, `withdraw` is accepted iff
`amount ≤ balance` at call time; a rejected withdrawal leaves the balance
unchanged, still records a registry entry under the freshly allocated id and
returns a confirmation tagged `X`; an accepted one decreases the balance by
exactly the amount and is tagged `W`. -/
theorem claim_C2_withdraw_accept_iff (self : AccountState) (g : Global)
    (amount : NumArg) (dt : DateTime) (a : ℚ)
    (hv : Account.validate_real_number amount (some (1 / 100)) = .ok a) :
    (Account.withdraw self g amount dt).2.2.counter = g.counter + 1 ∧
    (a ≤ self.balance →
      (Account.withdraw self g amount dt).2.1.balance = self.balance - a ∧
      (Account.withdraw self g amount dt).2.2.transactions g.counter =
        some { id_num := g.counter, code := "W",
               acc_num := self.account_number, dt := dt } ∧
      (Account.withdraw self g amount dt).1 =
        .ok ("W" ++ "-" ++ self.account_number ++ "-" ++ strftimeStamp dt ++
          "-" ++ String.mk (decDigits g.counter))) ∧
    (¬ a ≤ self.balance →
      (Account.withdraw self g amount dt).2.1 = self ∧
      (Account.withdraw self g amount dt).2.2.transactions g.counter =
        some { id_num := g.counter, code := "X",
               acc_num := self.account_number, dt := dt } ∧
      (Account.withdraw self g amount dt).1 =
        .ok ("X" ++ "-" ++ self.account_number ++ "-" ++ strftimeStamp dt ++
          "-" ++ String.mk (decDigits g.counter))) := by
  by_cases hb : self.balance - a < 0
  · have hle : ¬ a ≤ self.balance := fun hc =>
      not_lt.mpr (sub_nonneg.mpr hc) hb
    rw [withdraw_rejected self g amount dt a hv hb]
    exact ⟨rfl, fun hc => absurd hc hle, fun _ => ⟨rfl, by simp, rfl⟩⟩
  · have hle : a ≤ self.balance := by
      have h0 := not_lt.mp hb
      linarith
    rw [withdraw_accepted self g amount dt a hv hb]
    exact ⟨rfl, fun _ => ⟨rfl, by simp, rfl⟩, fun hc => absurd hle hc⟩

/-- C5: a deposit or withdrawal whose amount fails validation raises the
validation error and mutates nothing: the full result is the error together
with the account state and process state exactly as they were. -/
theorem claim_C5_validation_failure_no_mutation (self : AccountState)
    (g : Global) (amount : NumArg) (dt : DateTime) (e : PyErr)
    (hv : Account.validate_real_number amount (some (1 / 100)) = .error e) :
    Account.deposit self g amount dt = (.error e, self, g) ∧
    Account.withdraw self g amount dt = (.error e, self, g) :=
  ⟨deposit_err self g amount dt e hv, withdraw_err self g amount dt e hv⟩

/-- C7: `pay_interest` has no rejection path and multiplies the balance by
`1 + rate`; a second call compounds on the new balance. -/
theorem claim_C7_pay_interest_compounds (self : AccountState) (g : Global)
    (dt₁ dt₂ : DateTime) :
    (Account.pay_interest self g dt₁).2.1.balance =
      self.balance * (1 + g.interest_rate) ∧
    (Account.pay_interest self g dt₁).2.2.interest_rate = g.interest_rate ∧
    (Account.pay_interest (Account.pay_interest self g dt₁).2.1
        (Account.pay_interest self g dt₁).2.2 dt₂).2.1.balance =
      (Account.pay_interest self g dt₁).2.1.balance *
        (1 + g.interest_rate) := by
  simp only [pay_interest_eq]
  refine ⟨by ring, by trivial, by ring⟩

/-- C8: `get_transaction` on a confirmation whose trailing segment parses to
a transaction id absent from the registry raises the dict's `KeyError`. -/
theorem claim_C8_unknown_id_keyerror (g : Global) (confirmation tz : String)
    (id_num : Nat)
    (hparse : pyInt? (lastSeg '-' confirmation.data) = some id_num)
    (habsent : g.transactions id_num = none) :
    Account.get_transaction g confirmation tz = .error (.keyError id_num) := by
  unfold Account.get_transaction
  rw [hparse]
  dsimp only
  rw [habsent]

/-- C9: after reassigning `first_name` or `last_name` to a valid name, the
next `full_name` read returns the concatenation of the current trimmed first
name, one space, and the current trimmed last name — never a stale cache. -/
theorem claim_C9_full_name_fresh (self : AccountState) (n : String)
    (h : ¬ (pyStrip n).length = 0) :
    ((Account.set_first_name self (.str n)).1 = .ok () ∧
     (Account.set_first_name self (.str n)).2.first_name = pyStrip n ∧
     (Account.full_name (Account.set_first_name self (.str n)).2).1 =
       pyStrip n ++ " " ++ self.last_name) ∧
    ((Account.set_last_name self (.str n)).1 = .ok () ∧
     (Account.set_last_name self (.str n)).2.last_name = pyStrip n ∧
     (Account.full_name (Account.set_last_name self (.str n)).2).1 =
       self.first_name ++ " " ++ pyStrip n) := by
  simp only [Account.set_first_name, Account.set_last_name,
    Account.validate_name, Account.full_name, if_neg h]
  refine ⟨⟨?_, ?_, ?_⟩, ?_, ?_, ?_⟩ <;> trivial

/-- C10: every `deposit`, `withdraw` or `pay_interest` call — mutating,
rejected for insufficient funds, or raising a validation error — leaves all
account fields other than `balance` (number, names, `full_name` cache,
display zone) unchanged. -/
theorem claim_C10_frame_only_balance (self : AccountState) (g : Global)
    (amount : NumArg) (dt : DateTime) :
    sameIdentity self (Account.deposit self g amount dt).2.1 ∧
    sameIdentity self (Account.withdraw self g amount dt).2.1 ∧
    sameIdentity self (Account.pay_interest self g dt).2.1 := by
  refine ⟨?_, ?_, ?_⟩
  · cases hv : Account.validate_real_number amount (some (1 / 100)) with
    | error e =>
      rw [deposit_err self g amount dt e hv]
      exact ⟨rfl, rfl, rfl, rfl, rfl⟩
    | ok a =>
      rw [deposit_ok self g amount dt a hv]
      exact ⟨rfl, rfl, rfl, rfl, rfl⟩
  · cases hv : Account.validate_real_number amount (some (1 / 100)) with
    | error e =>
      rw [withdraw_err self g amount dt e hv]
      exact ⟨rfl, rfl, rfl, rfl, rfl⟩
    | ok a =>
      by_cases hb : self.balance - a < 0
      · rw [withdraw_rejected self g amount dt a hv hb]
        exact ⟨rfl, rfl, rfl, rfl, rfl⟩
      · rw [withdraw_accepted self g amount dt a hv hb]
        exact ⟨rfl, rfl, rfl, rfl, rfl⟩
  · rw [pay_interest_eq]
    exact ⟨rfl, rfl, rfl, rfl, rfl⟩

/-- C3: a confirmation code just returned by `deposit`, `withdraw` (accepted
or rejected) or `pay_interest` round-trips through `get_transaction` to a
record whose code letter, account number and transaction id are exactly those
of the operation that produced it. -/
theorem claim_C3_roundtrip (self : AccountState) (g : Global) (amount : NumArg)
    (dt : DateTime) (tz : String) (a : ℚ)
    (hv : Account.validate_real_number amount (some (1 / 100)) = .ok a) :
    (∀ c s' g', Account.deposit self g amount dt = (.ok c, s', g') →
      Account.get_transaction g' c tz =
        .ok { transaction_id := g.counter, transaction_code := "D",
              account_number := self.account_number, time_utc := dt,
              tz := tz }) ∧
    (∀ c s' g', Account.withdraw self g amount dt = (.ok c, s', g') →
      Account.get_transaction g' c tz =
        .ok { transaction_id := g.counter,
              transaction_code := if self.balance - a < 0 then "X" else "W",
              account_number := self.account_number, time_utc := dt,
              tz := tz }) ∧
    (∀ c s' g', Account.pay_interest self g dt = (c, s', g') →
      Account.get_transaction g' c tz =
        .ok { transaction_id := g.counter, transaction_code := "I",
              account_number := self.account_number, time_utc := dt,
              tz := tz }) := by
  refine ⟨?_, ?_, ?_⟩
  · intro c s' g' heq
    rw [deposit_ok self g amount dt a hv] at heq
    injection heq with hc hrest
    injection hrest with hs hg
    injection hc with hc
    subst hc
    subst hg
    exact get_transaction_append _ _ tz g.counter
        { id_num := g.counter, code := "D", acc_num := self.account_number, dt := dt }
        (if_pos rfl)
  · intro c s' g' heq
    by_cases hb : self.balance - a < 0
    · rw [withdraw_rejected self g amount dt a hv hb] at heq
      injection heq with hc hrest
      injection hrest with hs hg
      injection hc with hc
      subst hc
      subst hg
      rw [if_pos hb]
      exact get_transaction_append _ _ tz g.counter
        { id_num := g.counter, code := "X", acc_num := self.account_number, dt := dt }
        (if_pos rfl)
    · rw [withdraw_accepted self g amount dt a hv hb] at heq
      injection heq with hc hrest
      injection hrest with hs hg
      injection hc with hc
      subst hc
      subst hg
      rw [if_neg hb]
      exact get_transaction_append _ _ tz g.counter
        { id_num := g.counter, code := "W", acc_num := self.account_number, dt := dt }
        (if_pos rfl)
  · intro c s' g' heq
    rw [pay_interest_eq self g dt] at heq
    injection heq with hc hrest
    injection hrest with hs hg
    subst hc
    subst hg
    exact get_transaction_append _ _ tz g.counter
        { id_num := g.counter, code := "I", acc_num := self.account_number, dt := dt }
        (if_pos rfl)

/-- C6 counterexample: the account number is an unvalidated opaque string, so
with a hyphen in it a returned confirmation splits into five, not four,
hyphen-delimited fields even at a perfectly valid captured instant. -/
theorem claim_C6_counterexample_hyphenated_account :
    DateTime.valid ⟨2024, 5, 6, 7, 8, 9⟩ ∧
    (splitSegs '-' (Account.pay_interest
        ⟨"12-34", "John", "Dow", none, "UTC", 0⟩ Global.start
        ⟨2024, 5, 6, 7, 8, 9⟩).1.data).length = 5 := by
  constructor
  · decide
  · decide

/-- C6 (amended): provided the account number contains no hyphen, every
confirmation returned by `deposit`, `withdraw` or `pay_interest` splits into
exactly the four fields `CODE`, account number, `YYYYMMDDHHMMSS` stamp and
decimal transaction id, with `CODE` one of D/W/I/X, the stamp the captured
instant as 14 zero-padded digits, and the trailing field parsing back to the
allocated id. -/
theorem claim_C6_amended_conf_format (self : AccountState) (g : Global)
    (amount : NumArg) (dt : DateTime) (a : ℚ)
    (hacc : '-' ∉ self.account_number.data) (hdt : dt.valid)
    (hv : Account.validate_real_number amount (some (1 / 100)) = .ok a) :
    (strftimeStamp dt).data.length = 14 ∧
    (∀ ch ∈ (strftimeStamp dt).data, ch.isDigit = true) ∧
    (∀ c s' g', Account.deposit self g amount dt = (.ok c, s', g') →
      splitSegs '-' c.data =
        ["D".data, self.account_number.data, (strftimeStamp dt).data,
         decDigits g.counter]) ∧
    (∀ c s' g', Account.withdraw self g amount dt = (.ok c, s', g') →
      splitSegs '-' c.data =
        [(if self.balance - a < 0 then ("X" : String) else "W").data,
         self.account_number.data, (strftimeStamp dt).data,
         decDigits g.counter]) ∧
    (∀ c s' g', Account.pay_interest self g dt = (c, s', g') →
      splitSegs '-' c.data =
        ["I".data, self.account_number.data, (strftimeStamp dt).data,
         decDigits g.counter]) ∧
    pyInt? (decDigits g.counter) = some g.counter := by
  refine ⟨strftimeStamp_length dt hdt, strftimeStamp_all_digit dt, ?_, ?_, ?_,
    pyInt?_decDigits g.counter⟩
  · intro c s' g' heq
    rw [deposit_ok self g amount dt a hv] at heq
    injection heq with hc hrest
    injection hc with hc
    subst hc
    exact conf_split "D" self.account_number dt g.counter (by decide) hacc
  · intro c s' g' heq
    by_cases hb : self.balance - a < 0
    · rw [withdraw_rejected self g amount dt a hv hb] at heq
      injection heq with hc hrest
      injection hc with hc
      subst hc
      rw [if_pos hb]
      exact conf_split "X" self.account_number dt g.counter (by decide) hacc
    · rw [withdraw_accepted self g amount dt a hv hb] at heq
      injection heq with hc hrest
      injection hc with hc
      subst hc
      rw [if_neg hb]
      exact conf_split "W" self.account_number dt g.counter (by decide) hacc
  · intro c s' g' heq
    rw [pay_interest_eq self g dt] at heq
    injection heq with hc hrest
    subst hc
    exact conf_split "I" self.account_number dt g.counter (by decide) hacc

/-! ### Trace-level lemmas -/

theorem init_ok_balance_nonneg (number : String) (fn ln : StrArg)
    (ib : NumArg) (zone : Option String) (acc : AccountState)
    (h : Account.init number fn ln ib zone = .ok acc) : 0 ≤ acc.balance := by
  unfold Account.init at h
  cases h1 : Account.validate_name fn "first name" with
  | error e => rw [h1] at h; simp at h
  | ok f =>
    rw [h1] at h
    dsimp only at h
    cases h2 : Account.validate_name ln "last name" with
    | error e => rw [h2] at h; simp at h
    | ok l =>
      rw [h2] at h
      dsimp only at h
      cases h3 : Account.validate_initial_balance ib (some 0) with
      | error e => rw [h3] at h; simp at h
      | ok bal =>
        rw [h3] at h
        dsimp only at h
        simp only [Except.ok.injEq] at h
        subst h
        obtain ⟨_, hb, _⟩ := validate_initial_balance_ok ib (some 0) bal h3
        simpa using hb

theorem set_first_name_balance (self : AccountState) (name : StrArg) :
    (Account.set_first_name self name).2.balance = self.balance := by
  unfold Account.set_first_name
  cases h : Account.validate_name name "first name" <;> rfl

theorem set_last_name_balance (self : AccountState) (name : StrArg) :
    (Account.set_last_name self name).2.balance = self.balance := by
  unfold Account.set_last_name
  cases h : Account.validate_name name "last name" <;> rfl

theorem full_name_balance (self : AccountState) :
    (Account.full_name self).2.balance = self.balance := by
  unfold Account.full_name
  cases h : self.full_name_cache <;> rfl

theorem set_interest_rate_counter (g : Global) (value : NumArg) :
    (Account.set_interest_rate g value).2.counter = g.counter := by
  unfold Account.set_interest_rate
  cases value with
  | nonReal => rfl
  | real q =>
    dsimp only
    split <;> rfl

theorem set_interest_rate_nonneg (g : Global) (value : NumArg)
    (hr : 0 ≤ g.interest_rate) :
    0 ≤ (Account.set_interest_rate g value).2.interest_rate := by
  unfold Account.set_interest_rate
  cases value with
  | nonReal => exact hr
  | real q =>
    dsimp only
    split
    next => exact hr
    next hq => simpa using le_of_not_lt hq

theorem deposit_rate (self : AccountState) (g : Global) (amount : NumArg)
    (dt : DateTime) :
    (Account.deposit self g amount dt).2.2.interest_rate = g.interest_rate := by
  cases hv : Account.validate_real_number amount (some (1 / 100)) with
  | error e => rw [deposit_err _ _ _ _ _ hv]
  | ok a => rw [deposit_ok _ _ _ _ _ hv]

theorem withdraw_rate (self : AccountState) (g : Global) (amount : NumArg)
    (dt : DateTime) :
    (Account.withdraw self g amount dt).2.2.interest_rate = g.interest_rate := by
  cases hv : Account.validate_real_number amount (some (1 / 100)) with
  | error e => rw [withdraw_err _ _ _ _ _ hv]
  | ok a =>
    by_cases hlt : self.balance - a < 0
    · rw [withdraw_rejected _ _ _ _ _ hv hlt]
    · rw [withdraw_accepted _ _ _ _ _ hv hlt]

theorem step_preserves_nonneg (b : Bank) (op : Op)
    (hb : ∀ x ∈ b.accounts, 0 ≤ x.balance) (hr : 0 ≤ b.g.interest_rate) :
    (∀ x ∈ (b.step op).accounts, 0 ≤ x.balance) ∧
      0 ≤ (b.step op).g.interest_rate := by
  cases op with
  | dep i amount dt =>
    dsimp only [Bank.step]
    cases hg : b.accounts.get? i with
    | none => exact ⟨hb, hr⟩
    | some acc =>
      dsimp only
      have hacc := hb acc (List.get?_mem hg)
      refine ⟨?_, by rw [deposit_rate]; exact hr⟩
      intro x hx
      rcases List.mem_or_eq_of_mem_set hx with hmem | heq
      · exact hb x hmem
      · subst heq
        cases hv : Account.validate_real_number amount (some (1 / 100)) with
        | error e => rw [deposit_err _ _ _ _ _ hv]; exact hacc
        | ok a =>
          rw [deposit_ok _ _ _ _ _ hv]
          obtain ⟨_, ha, _, _⟩ := validate_real_number_ok _ _ _ hv
          exact add_nonneg hacc ha
  | wd i amount dt =>
    dsimp only [Bank.step]
    cases hg : b.accounts.get? i with
    | none => exact ⟨hb, hr⟩
    | some acc =>
      dsimp only
      have hacc := hb acc (List.get?_mem hg)
      refine ⟨?_, by rw [withdraw_rate]; exact hr⟩
      intro x hx
      rcases List.mem_or_eq_of_mem_set hx with hmem | heq
      · exact hb x hmem
      · subst heq
        cases hv : Account.validate_real_number amount (some (1 / 100)) with
        | error e => rw [withdraw_err _ _ _ _ _ hv]; exact hacc
        | ok a =>
          by_cases hlt : acc.balance - a < 0
          · rw [withdraw_rejected _ _ _ _ _ hv hlt]; exact hacc
          · rw [withdraw_accepted _ _ _ _ _ hv hlt]
            exact le_of_not_lt hlt
  | interest i dt =>
    dsimp only [Bank.step]
    cases hg : b.accounts.get? i with
    | none => exact ⟨hb, hr⟩
    | some acc =>
      have hacc := hb acc (List.get?_mem hg)
      refine ⟨?_, hr⟩
      intro x hx
      rcases List.mem_or_eq_of_mem_set hx with hmem | heq
      · exact hb x hmem
      · subst heq
        rw [pay_interest_eq]
        exact add_nonneg hacc (mul_nonneg hacc hr)
  | setRate value =>
    exact ⟨hb, set_interest_rate_nonneg b.g value hr⟩
  | setFirst i name =>
    dsimp only [Bank.step]
    cases hg : b.accounts.get? i with
    | none => exact ⟨hb, hr⟩
    | some acc =>
      have hacc := hb acc (List.get?_mem hg)
      refine ⟨?_, hr⟩
      intro x hx
      rcases List.mem_or_eq_of_mem_set hx with hmem | heq
      · exact hb x hmem
      · subst heq
        rw [set_first_name_balance]
        exact hacc
  | setLast i name =>
    dsimp only [Bank.step]
    cases hg : b.accounts.get? i with
    | none => exact ⟨hb, hr⟩
    | some acc =>
      have hacc := hb acc (List.get?_mem hg)
      refine ⟨?_, hr⟩
      intro x hx
      rcases List.mem_or_eq_of_mem_set hx with hmem | heq
      · exact hb x hmem
      · subst heq
        rw [set_last_name_balance]
        exact hacc
  | readFull i =>
    dsimp only [Bank.step]
    cases hg : b.accounts.get? i with
    | none => exact ⟨hb, hr⟩
    | some acc =>
      have hacc := hb acc (List.get?_mem hg)
      refine ⟨?_, hr⟩
      intro x hx
      rcases List.mem_or_eq_of_mem_set hx with hmem | heq
      · exact hb x hmem
      · subst heq
        rw [full_name_balance]
        exact hacc

theorem run_preserves_nonneg (b : Bank) (ops : List Op)
    (hb : ∀ x ∈ b.accounts, 0 ≤ x.balance) (hr : 0 ≤ b.g.interest_rate) :
    ∀ x ∈ (b.run ops).accounts, 0 ≤ x.balance := by
  induction ops generalizing b with
  | nil => exact hb
  | cons op ops ih =>
    dsimp only [Bank.run]
    obtain ⟨h1, h2⟩ := step_preserves_nonneg b op hb hr
    exact ih (b.step op) h1 h2

/-- C1: a validly constructed account starts with `balance ≥ 0`, and along
any trace of calls (deposits, withdrawals, interest payments, rate changes,
name changes, `full_name` reads) on any accounts of the process with a
non-negative class interest rate, every account's balance stays `≥ 0`. -/
theorem claim_C1_balance_nonneg (number : String) (fn ln : StrArg)
    (ib : NumArg) (zone : Option String) (acc : AccountState)
    (hinit : Account.init number fn ln ib zone = .ok acc)
    (b : Bank) (hacc : ∀ x ∈ b.accounts, 0 ≤ x.balance)
    (hr : 0 ≤ b.g.interest_rate) (ops : List Op) :
    0 ≤ acc.balance ∧ ∀ x ∈ (b.run ops).accounts, 0 ≤ x.balance :=
  ⟨init_ok_balance_nonneg number fn ln ib zone acc hinit,
   run_preserves_nonneg b ops hacc hr⟩

theorem pay_interest_counter (self : AccountState) (g : Global)
    (dt : DateTime) :
    (Account.pay_interest self g dt).2.2.counter = g.counter + 1 := by
  rw [pay_interest_eq]

theorem step_counter (b : Bank) (op : Op) :
    (b.step op).g.counter = b.g.counter ∨
      (b.step op).g.counter = b.g.counter + 1 := by
  cases op with
  | dep i amount dt =>
    dsimp only [Bank.step]
    cases hg : b.accounts.get? i with
    | none => exact .inl rfl
    | some acc =>
      dsimp only
      cases hv : Account.validate_real_number amount (some (1 / 100)) with
      | error e => rw [deposit_err _ _ _ _ _ hv]; exact .inl rfl
      | ok a => rw [deposit_ok _ _ _ _ _ hv]; exact .inr rfl
  | wd i amount dt =>
    dsimp only [Bank.step]
    cases hg : b.accounts.get? i with
    | none => exact .inl rfl
    | some acc =>
      dsimp only
      cases hv : Account.validate_real_number amount (some (1 / 100)) with
      | error e => rw [withdraw_err _ _ _ _ _ hv]; exact .inl rfl
      | ok a =>
        by_cases hlt : acc.balance - a < 0
        · rw [withdraw_rejected _ _ _ _ _ hv hlt]; exact .inr rfl
        · rw [withdraw_accepted _ _ _ _ _ hv hlt]; exact .inr rfl
  | interest i dt =>
    dsimp only [Bank.step]
    cases hg : b.accounts.get? i with
    | none => exact .inl rfl
    | some acc =>
      dsimp only
      rw [pay_interest_counter]
      exact .inr rfl
  | setRate value =>
    dsimp only [Bank.step]
    rw [set_interest_rate_counter]
    exact .inl rfl
  | setFirst i name =>
    dsimp only [Bank.step]
    cases hg : b.accounts.get? i with
    | none => exact .inl rfl
    | some acc => exact .inl rfl
  | setLast i name =>
    dsimp only [Bank.step]
    cases hg : b.accounts.get? i with
    | none => exact .inl rfl
    | some acc => exact .inl rfl
  | readFull i =>
    dsimp only [Bank.step]
    cases hg : b.accounts.get? i with
    | none => exact .inl rfl
    | some acc => exact .inl rfl

theorem allocTrace_lower (b : Bank) (ops : List Op) :
    ∀ x ∈ b.allocTrace ops, b.g.counter ≤ x := by
  induction ops generalizing b with
  | nil => simp [Bank.allocTrace]
  | cons op ops ih =>
    dsimp only [Bank.allocTrace]
    split
    next heq =>
      intro x hx
      have h1 := ih (b.step op) x hx
      omega
    next hne =>
      intro x hx
      rcases List.mem_cons.mp hx with rfl | hx'
      · exact le_refl _
      · have h1 := ih (b.step op) x hx'
        rcases step_counter b op with h2 | h2 <;> omega

/-- C4: along any trace of operation attempts — on the same or different
accounts, rejected withdrawals included — the transaction ids handed out by
the shared class-level generator are strictly increasing, hence pairwise
distinct and never reused. -/
theorem claim_C4_ids_strictly_increasing (b : Bank) (ops : List Op) :
    List.Sorted (· < ·) (b.allocTrace ops) ∧
      List.Pairwise (· ≠ ·) (b.allocTrace ops) := by
  have hs : List.Sorted (· < ·) (b.allocTrace ops) := by
    induction ops generalizing b with
    | nil => simp [Bank.allocTrace]
    | cons op ops ih =>
      dsimp only [Bank.allocTrace]
      split
      next heq => exact ih (b.step op)
      next hne =>
        rw [List.sorted_cons]
        refine ⟨?_, ih (b.step op)⟩
        intro x hx
        have h1 := allocTrace_lower (b.step op) ops x hx
        rcases step_counter b op with h2 | h2
        · exact absurd h2 hne
        · omega
  exact ⟨hs, hs.imp fun h => ne_of_lt h⟩

/-! ### Concrete fixtures for the witnesses -/

/-- A concrete account state used to instantiate the theorems. -/
def wAcct : AccountState :=
  { account_number := "123456", first_name := "Name", last_name := "Surname",
    full_name_cache := none, tz := "UTC", balance := 100 }

/-- A concrete captured UTC instant used to instantiate the theorems. -/
def wDt : DateTime :=
  { year := 2024, month := 1, day := 2, hour := 3, minute := 4, second := 5 }

/-- The freshly constructed account used by the C1 witness. -/
def wAcct0 : AccountState :=
  { account_number := "123456", first_name := "Name", last_name := "Surname",
    full_name_cache := none, tz := "UTC", balance := 0 }

/-- Witness for C1: a concrete valid construction, a one-account bank and a
two-call trace (a deposit and an over-large withdrawal). -/
theorem claim_C1_balance_nonneg_witness :
    Account.init "123456" (.str "Name") (.str "Surname") (.real 0) none =
      .ok wAcct0 ∧
    (∀ x ∈ (⟨[wAcct], Global.start⟩ : Bank).accounts, 0 ≤ x.balance) ∧
    0 ≤ (⟨[wAcct], Global.start⟩ : Bank).g.interest_rate ∧
    (0 ≤ wAcct0.balance ∧
     ∀ x ∈ ((⟨[wAcct], Global.start⟩ : Bank).run
         [.dep 0 (.real 10) wDt, .wd 0 (.real 200) wDt]).accounts,
       0 ≤ x.balance) := by
  have h1 : Account.validate_name (.str "Name") "first name" = .ok "Name" := by
    decide
  have h2 : Account.validate_name (.str "Surname") "last name" =
      .ok "Surname" := by decide
  have h3 : Account.validate_initial_balance (.real 0) (some 0) = .ok 0 := by
    norm_num [Account.validate_initial_balance]
  have hinit : Account.init "123456" (.str "Name") (.str "Surname") (.real 0)
      none = .ok wAcct0 := by
    simp only [Account.init, h1, h2, h3]
    rfl
  have hacc : ∀ x ∈ (⟨[wAcct], Global.start⟩ : Bank).accounts,
      0 ≤ x.balance := by
    intro x hx
    rcases List.mem_singleton.mp hx with rfl
    norm_num [wAcct]
  have hr : 0 ≤ (⟨[wAcct], Global.start⟩ : Bank).g.interest_rate := by
    norm_num [Global.start]
  exact ⟨hinit, hacc, hr,
    claim_C1_balance_nonneg "123456" (.str "Name") (.str "Surname") (.real 0)
      none wAcct0 hinit ⟨[wAcct], Global.start⟩ hacc hr
      [.dep 0 (.real 10) wDt, .wd 0 (.real 200) wDt]⟩

/-- Witness for C2: withdrawing 40 from a balance of 100. -/
theorem claim_C2_withdraw_accept_iff_witness :
    Account.validate_real_number (.real 40) (some (1 / 100)) = .ok 40 ∧
    ((Account.withdraw wAcct Global.start (.real 40) wDt).2.2.counter =
        Global.start.counter + 1 ∧
     ((40 : ℚ) ≤ wAcct.balance →
       (Account.withdraw wAcct Global.start (.real 40) wDt).2.1.balance =
         wAcct.balance - 40 ∧
       (Account.withdraw wAcct Global.start (.real 40) wDt).2.2.transactions
           Global.start.counter =
         some { id_num := Global.start.counter, code := "W",
                acc_num := wAcct.account_number, dt := wDt } ∧
       (Account.withdraw wAcct Global.start (.real 40) wDt).1 =
         .ok ("W" ++ "-" ++ wAcct.account_number ++ "-" ++ strftimeStamp wDt ++
           "-" ++ String.mk (decDigits Global.start.counter))) ∧
     (¬ (40 : ℚ) ≤ wAcct.balance →
       (Account.withdraw wAcct Global.start (.real 40) wDt).2.1 = wAcct ∧
       (Account.withdraw wAcct Global.start (.real 40) wDt).2.2.transactions
           Global.start.counter =
         some { id_num := Global.start.counter, code := "X",
                acc_num := wAcct.account_number, dt := wDt } ∧
       (Account.withdraw wAcct Global.start (.real 40) wDt).1 =
         .ok ("X" ++ "-" ++ wAcct.account_number ++ "-" ++ strftimeStamp wDt ++
           "-" ++ String.mk (decDigits Global.start.counter)))) := by
  have hv : Account.validate_real_number (.real 40) (some (1 / 100)) =
      .ok 40 := by
    norm_num [Account.validate_real_number, Account.validate_initial_balance]
  exact ⟨hv,
    claim_C2_withdraw_accept_iff wAcct Global.start (.real 40) wDt 40 hv⟩

/-- Witness for C3: depositing 10 and looking the confirmation up. -/
theorem claim_C3_roundtrip_witness :
    Account.validate_real_number (.real 10) (some (1 / 100)) = .ok 10 ∧
    ((∀ c s' g',
        Account.deposit wAcct Global.start (.real 10) wDt = (.ok c, s', g') →
        Account.get_transaction g' c "UTC" =
          .ok { transaction_id := Global.start.counter,
                transaction_code := "D",
                account_number := wAcct.account_number, time_utc := wDt,
                tz := "UTC" }) ∧
     (∀ c s' g',
        Account.withdraw wAcct Global.start (.real 10) wDt = (.ok c, s', g') →
        Account.get_transaction g' c "UTC" =
          .ok { transaction_id := Global.start.counter,
                transaction_code := if wAcct.balance - 10 < 0 then "X" else "W",
                account_number := wAcct.account_number, time_utc := wDt,
                tz := "UTC" }) ∧
     (∀ c s' g',
        Account.pay_interest wAcct Global.start wDt = (c, s', g') →
        Account.get_transaction g' c "UTC" =
          .ok { transaction_id := Global.start.counter,
                transaction_code := "I",
                account_number := wAcct.account_number, time_utc := wDt,
                tz := "UTC" })) := by
  have hv : Account.validate_real_number (.real 10) (some (1 / 100)) =
      .ok 10 := by
    norm_num [Account.validate_real_number, Account.validate_initial_balance]
  exact ⟨hv, claim_C3_roundtrip wAcct Global.start (.real 10) wDt "UTC" 10 hv⟩

/-- Witness for C5: a zero deposit amount fails validation below the 0.01
minimum and mutates nothing. -/
theorem claim_C5_validation_failure_no_mutation_witness :
    Account.validate_real_number (.real 0) (some (1 / 100)) =
      .error (.belowMin (1 / 100)) ∧
    (Account.deposit wAcct Global.start (.real 0) wDt =
       (.error (.belowMin (1 / 100)), wAcct, Global.start) ∧
     Account.withdraw wAcct Global.start (.real 0) wDt =
       (.error (.belowMin (1 / 100)), wAcct, Global.start)) := by
  have hv : Account.validate_real_number (.real 0) (some (1 / 100)) =
      .error (.belowMin (1 / 100)) := by
    norm_num [Account.validate_real_number, Account.validate_initial_balance]
  exact ⟨hv, claim_C5_validation_failure_no_mutation wAcct Global.start
    (.real 0) wDt _ hv⟩

/-- Witness for C6 (amended): a hyphen-free account number and a valid
instant. -/
theorem claim_C6_amended_conf_format_witness :
    ('-' ∉ wAcct.account_number.data) ∧ DateTime.valid wDt ∧
    Account.validate_real_number (.real 10) (some (1 / 100)) = .ok 10 ∧
    ((strftimeStamp wDt).data.length = 14 ∧
     (∀ ch ∈ (strftimeStamp wDt).data, ch.isDigit = true) ∧
     (∀ c s' g',
        Account.deposit wAcct Global.start (.real 10) wDt = (.ok c, s', g') →
        splitSegs '-' c.data =
          ["D".data, wAcct.account_number.data, (strftimeStamp wDt).data,
           decDigits Global.start.counter]) ∧
     (∀ c s' g',
        Account.withdraw wAcct Global.start (.real 10) wDt = (.ok c, s', g') →
        splitSegs '-' c.data =
          [(if wAcct.balance - 10 < 0 then ("X" : String) else "W").data,
           wAcct.account_number.data, (strftimeStamp wDt).data,
           decDigits Global.start.counter]) ∧
     (∀ c s' g',
        Account.pay_interest wAcct Global.start wDt = (c, s', g') →
        splitSegs '-' c.data =
          ["I".data, wAcct.account_number.data, (strftimeStamp wDt).data,
           decDigits Global.start.counter]) ∧
     pyInt? (decDigits Global.start.counter) = some Global.start.counter) := by
  have hacc : '-' ∉ wAcct.account_number.data := by decide
  have hdt : DateTime.valid wDt := by decide
  have hv : Account.validate_real_number (.real 10) (some (1 / 100)) =
      .ok 10 := by
    norm_num [Account.validate_real_number, Account.validate_initial_balance]
  exact ⟨hacc, hdt, hv, claim_C6_amended_conf_format wAcct Global.start
    (.real 10) wDt 10 hacc hdt hv⟩

/-- Witness for C8: a syntactically valid confirmation whose id 7 was never
issued. -/
theorem claim_C8_unknown_id_keyerror_witness :
    pyInt? (lastSeg '-' ("D-123456-20240102030405-7" : String).data) =
      some 7 ∧
    Global.start.transactions 7 = none ∧
    Account.get_transaction Global.start "D-123456-20240102030405-7" "UTC" =
      .error (.keyError 7) := by
  have hp : pyInt? (lastSeg '-' ("D-123456-20240102030405-7" : String).data) =
      some 7 := by decide
  exact ⟨hp, rfl,
    claim_C8_unknown_id_keyerror Global.start "D-123456-20240102030405-7"
      "UTC" 7 hp rfl⟩

/-- Witness for C9: renaming to "John". -/
theorem claim_C9_full_name_fresh_witness :
    ¬ (pyStrip "John").length = 0 ∧
    (((Account.set_first_name wAcct (.str "John")).1 = .ok () ∧
      (Account.set_first_name wAcct (.str "John")).2.first_name =
        pyStrip "John" ∧
      (Account.full_name (Account.set_first_name wAcct (.str "John")).2).1 =
        pyStrip "John" ++ " " ++ wAcct.last_name) ∧
     ((Account.set_last_name wAcct (.str "John")).1 = .ok () ∧
      (Account.set_last_name wAcct (.str "John")).2.last_name =
        pyStrip "John" ∧
      (Account.full_name (Account.set_last_name wAcct (.str "John")).2).1 =
        wAcct.first_name ++ " " ++ pyStrip "John")) := by
  have h : ¬ (pyStrip "John").length = 0 := by decide
  exact ⟨h, claim_C9_full_name_fresh wAcct "John" h⟩
